import Mathlib

/-!
Shallow embedding of the client-side request/validation/security gate of the
portfolio website (contact form in `my-portfolio/js/main.js`, Supabase-backed
admin layer in the unnamed client file), together with theorems settling the
frozen claims about it.  DOM access, timers and network transport are treated
as opaque collaborators: a submission/operation carries its field values, the
local rate-limit history is explicit state, and each collaborator's outcome
(mail status code, store error, auth result, admin-membership row) is an input
of the embedded function.
-/

namespace Portfolio

/-- The ASCII whitespace characters relevant to JavaScript `String.prototype.trim`
and to the `\s` class for form input. -/
def isSpaceChar (c : Char) : Bool :=
  c = ' ' || c = '\t' || c = '\n' || c = '\r' || c = '\x0b' || c = '\x0c'

/-- JavaScript `str.trim()`: strip leading and trailing whitespace. -/
def jsTrim (s : String) : String :=
  ⟨((s.toList.dropWhile isSpaceChar).reverse.dropWhile isSpaceChar).reverse⟩

namespace ContactForm

/-! ### Configuration (`CONFIG` in main.js) -/

/-- `CONFIG.security.maxSubmissionsPerHour`. -/
def maxSubmissionsPerHour : Nat := 5

/-- One hour in milliseconds (`60 * 60 * 1000`), the rolling rate-limit window. -/
def oneHourMs : Int := 3600000

/-- The four validated form fields (`CONFIG.validation` keys).  The dynamically
created honeypot input is also iterated by `validateForm`, but `validateField`
returns `true` for it immediately (its name equals `CONFIG.security.honeypotFieldName`),
so it contributes no check. -/
inductive Field
  | name
  | email
  | subject
  | message
deriving DecidableEq, Repr

/-- `capitalizeFirst(fieldName)` applied to each field name. -/
def fieldLabel : Field → String
  | .name => "Name"
  | .email => "Email"
  | .subject => "Subject"
  | .message => "Message"

/-- `CONFIG.validation[field].minLength` (absent for email). -/
def fieldMinLength : Field → Option Nat
  | .name => some 2
  | .email => none
  | .subject => some 5
  | .message => some 10

/-- `CONFIG.validation[field].maxLength` (absent for email). -/
def fieldMaxLength : Field → Option Nat
  | .name => some 50
  | .email => none
  | .subject => some 100
  | .message => some 1000

/-- The character class `[a-zA-Z\s'-]` of `CONFIG.validation.name.pattern`. -/
def namePatternChar (c : Char) : Bool :=
  (c.isUpper || c.isLower) || isSpaceChar c || c = '\'' || c = '-'

/-- `CONFIG.validation.name.pattern`, the anchored regex `[a-zA-Z\s'-]+`. -/
def namePattern (s : String) : Bool :=
  !s.isEmpty && s.toList.all namePatternChar

/-- ASCII letter or digit (`[a-zA-Z0-9]`). -/
def alnum (c : Char) : Bool :=
  c.isUpper || c.isLower || c.isDigit

/-- The local-part character class of `CONFIG.validation.email.pattern`.  The
backtick, left-brace and right-brace members of the class are written via their
code points (96, 123, 125). -/
def emailLocalChar (c : Char) : Bool :=
  alnum c ||
    ['.', '!', '#', '$', '%', '&', '\'', '*', '+', '/', '=', '?', '^', '_',
     Char.ofNat 96, Char.ofNat 123, '|', Char.ofNat 125, '~', '-'].contains c

/-- One domain atom of the email pattern:
`[a-zA-Z0-9](?:[a-zA-Z0-9-]{0,61}[a-zA-Z0-9])?` — a nonempty label of at most
63 characters, first and last alphanumeric, interior alphanumeric or hyphen. -/
def emailDomainAtom (s : List Char) : Bool :=
  match s with
  | [] => false
  | c :: rest =>
    match rest.reverse with
    | [] => alnum c
    | d :: mid => alnum c && alnum d && decide (mid.length ≤ 61)
        && mid.all (fun x => alnum x || x = '-')

/-- Split a character list at every occurrence of `sep` (the semantics of
JavaScript `split` with a one-character separator: `n` separators yield `n + 1`
pieces, empty pieces included). -/
def splitOnChar (sep : Char) : List Char → List (List Char)
  | [] => [[]]
  | x :: xs =>
    match splitOnChar sep xs with
    | [] => if x = sep then [[], []] else [[x]]
    | piece :: rest =>
      if x = sep then [] :: piece :: rest else (x :: piece) :: rest

/-- `CONFIG.validation.email.pattern`: anchored `local+@atom(\.atom)*`.  Since
no class in the pattern contains `@`, and the domain classes contain no dot,
a match decomposes uniquely at the (only) `@` and at the domain dots. -/
def emailPattern (s : String) : Bool :=
  match splitOnChar '@' s.toList with
  | [l, d] =>
    !l.isEmpty && l.all emailLocalChar &&
      (splitOnChar '.' d).all (fun a => emailDomainAtom a)
  | _ => false

/-- `CONFIG.validation[field].pattern`, when present. -/
def fieldPattern : Field → Option (String → Bool)
  | .name => some namePattern
  | .email => some emailPattern
  | _ => none

/-- The pattern-failure error message chosen by `validateField`. -/
def patternErrorMessage : Field → String
  | .email => "Please enter a valid email address"
  | .name => "Name can only contain letters, spaces, apostrophes, and hyphens"
  | f => fieldLabel f ++ " format is invalid"

/-- `validateField` of main.js, restricted to its pure verdict: the error
message recorded in `formState.validationErrors[fieldName]`, or `none` when the
field is valid.  The field's value is trimmed first; then required, minLength,
maxLength and pattern checks run in that order. -/
def validateField (f : Field) (raw : String) : Option String :=
  let value := jsTrim raw
  if value.isEmpty then
    some (fieldLabel f ++ " is required")
  else if (fieldMinLength f).any (fun m => value.length < m) then
    some (fieldLabel f ++ " must be at least " ++
      toString ((fieldMinLength f).getD 0) ++ " characters")
  else if (fieldMaxLength f).any (fun m => m < value.length) then
    some (fieldLabel f ++ " must be less than " ++
      toString ((fieldMaxLength f).getD 0) ++ " characters")
  else if (fieldPattern f).any (fun p => !p value) then
    some (patternErrorMessage f)
  else
    none

/-! ### Content check (`checkMessageContent`) -/

/-- JavaScript `toLowerCase` on the ASCII range. -/
def jsToLower (s : String) : List Char :=
  s.toList.map Char.toLower

/-- A word character for the regex `\b` boundary: `[A-Za-z0-9_]`. -/
def isWordChar (c : Char) : Bool :=
  alnum c || c = '_'

/-- The keyword alternatives of the denylist pattern
`\b(viagra|casino|lottery|winner|congratulations|click here|buy now)\b`. -/
def spamKeywords : List String :=
  ["viagra", "casino", "lottery", "winner", "congratulations",
   "click here", "buy now"]

/-- Whether `kw` matches at the head of `s`, with `prev` the character just
before this position (for the leading `\b`) and the character after the
keyword checked for the trailing `\b`. -/
def wordBoundedHere (kw : List Char) (prev : Option Char) (s : List Char) : Bool :=
  kw.isPrefixOf s &&
    (match prev with
     | none => true
     | some c => !isWordChar c) &&
    (match s.drop kw.length with
     | [] => true
     | c :: _ => !isWordChar c)

/-- Scan `s` for a word-bounded occurrence of `kw`, carrying the previous
character for the leading boundary test. -/
def wordBoundedScan (kw : List Char) (prev : Option Char) : List Char → Bool
  | [] => wordBoundedHere kw prev []
  | c :: rest =>
    wordBoundedHere kw prev (c :: rest) || wordBoundedScan kw (some c) rest

/-- The denylist pattern: some keyword occurs word-bounded in `s`. -/
def spamMatch (s : List Char) : Bool :=
  spamKeywords.any (fun kw => wordBoundedScan kw.toList none s)

/-- Match of `https?:\/\/[^\s]+` at the head of `t`: a scheme, `://`, and at
least one non-whitespace character. -/
def urlAtHead (t : List Char) : Bool :=
  ("http://".toList.isPrefixOf t &&
    (match t.drop 7 with
     | [] => false
     | c :: _ => !isSpaceChar c)) ||
  ("https://".toList.isPrefixOf t &&
    (match t.drop 8 with
     | [] => false
     | c :: _ => !isSpaceChar c))

/-- The URL pattern `https?:\/\/[^\s]+` matches somewhere in `s`. -/
def urlMatch (s : List Char) : Bool :=
  s.tails.any urlAtHead

/-- The JavaScript line terminators (`\n`, `\r`, U+2028, U+2029), which the
regex `.` does not match when the `s` flag is absent. -/
def isLineTerminator (c : Char) : Bool :=
  c = '\n' || c = '\r' || c = Char.ofNat 0x2028 || c = Char.ofNat 0x2029

/-- Match of `(.)\1{10,}` at the head of `t`: `.` captures one character that
is not a line terminator, and the backreference requires at least ten further
copies of it. -/
def repeatRunAt (t : List Char) : Bool :=
  match t with
  | [] => false
  | c :: rest =>
    !isLineTerminator c && decide ((rest.take 10).length = 10) &&
      (rest.take 10).all (fun x => x = c)

/-- The repeated-character pattern `(.)\1{10,}` matches somewhere in `s`:
a run of eleven identical non-line-terminator characters. -/
def repeatMatch (s : List Char) : Bool :=
  s.tails.any repeatRunAt

/-- `checkMessageContent` of main.js: lower-case the raw message field and pass
it iff none of the three prohibited patterns matches.  `true` means the content
check passes; `false` means the submission is rejected. -/
def checkMessageContent (message : String) : Bool :=
  let s := jsToLower message
  !(spamMatch s || urlMatch s || repeatMatch s)

/-! ### Rate limiting (`checkRateLimit`, `recordSubmission`) -/

/-- The pruning step of `checkRateLimit`: keep only timestamps strictly newer
than one hour before `now`. -/
def pruneHistory (now : Int) (h : List Int) : List Int :=
  h.filter (fun t => now - oneHourMs < t)

/-- `checkRateLimit`: prune the stored history, save the pruned list back, and
pass iff the remaining count is below `maxSubmissionsPerHour`.  Returns the
verdict together with the saved (pruned) history. -/
def checkRateLimit (now : Int) (h : List Int) : Bool × List Int :=
  let recent := pruneHistory now h
  (decide (recent.length < maxSubmissionsPerHour), recent)

/-! ### Submission pipeline (`validateForm`, `performSecurityChecks`,
`handleFormSubmit`) -/

/-- A contact-form submission: the raw values of the four visible fields plus
the hidden honeypot field. -/
structure Submission where
  name : String
  email : String
  subject : String
  message : String
  honeypot : String
deriving DecidableEq, Repr

/-- The raw value of a field of the submission. -/
def Submission.field (sub : Submission) : Field → String
  | .name => sub.name
  | .email => sub.email
  | .subject => sub.subject
  | .message => sub.message

/-- User-visible side effects and collaborator calls of the pipeline.
`console` logging is not user-visible and is not modelled. -/
inductive Effect
  | mailSend
  | storeInsert
  | errorShown (msg : String)
  | successShown (msg : String)
deriving DecidableEq, Repr

/-- The checks the gate performs, in the order it performs them:
per-field validation, honeypot, rate limit, content. -/
inductive CheckEvent
  | fieldCheck (f : Field)
  | honeypotCheck
  | rateLimitCheck
  | contentCheck
deriving DecidableEq, Repr

/-- Result of `performSecurityChecks`: verdict, user-visible effects, the
history as saved by `checkRateLimit`, and the checks that actually ran. -/
structure SecResult where
  ok : Bool
  effects : List Effect
  history : List Int
  trace : List CheckEvent
deriving Repr

/-- `performSecurityChecks` of main.js.  Honeypot first: a non-empty honeypot
value returns `false` with only a console warning (no user-visible message, no
rate-limit access).  Then `checkRateLimit` (which saves the pruned history as a
side effect) with an error notification on failure, then `checkMessageContent`
with an error notification on failure. -/
def performSecurityChecks (sub : Submission) (now : Int) (h : List Int) :
    SecResult :=
  if sub.honeypot ≠ "" then
    { ok := false, effects := [], history := h, trace := [.honeypotCheck] }
  else
    let (pass, h') := checkRateLimit now h
    if !pass then
      { ok := false
        effects := [.errorShown "Too many submissions. Please wait before trying again."]
        history := h'
        trace := [.honeypotCheck, .rateLimitCheck] }
    else if !checkMessageContent sub.message then
      { ok := false
        effects := [.errorShown "Message contains prohibited content."]
        history := h'
        trace := [.honeypotCheck, .rateLimitCheck, .contentCheck] }
    else
      { ok := true, effects := [], history := h'
        trace := [.honeypotCheck, .rateLimitCheck, .contentCheck] }

/-- The order in which `validateForm` visits the validated fields. -/
def fieldOrder : List Field := [.name, .email, .subject, .message]

/-- The field errors collected by running `validateField` over every field. -/
def validateFields (sub : Submission) : List String :=
  fieldOrder.filterMap (fun f => validateField f (sub.field f))

/-- Result of `validateForm`. -/
structure ValidateResult where
  ok : Bool
  effects : List Effect
  history : List Int
  fieldErrors : List String
  trace : List CheckEvent
deriving Repr

/-- `validateForm` of main.js: runs `validateField` on every input/textarea
element (the honeypot input is skipped inside `validateField`), then — and
unconditionally, even when a field already failed — `performSecurityChecks`.
The form is valid iff no field error was recorded and the security checks
passed. -/
def validateForm (sub : Submission) (now : Int) (h : List Int) :
    ValidateResult :=
  let errs := validateFields sub
  let sec := performSecurityChecks sub now h
  { ok := errs.isEmpty && sec.ok
    effects := sec.effects
    history := sec.history
    fieldErrors := errs
    trace := fieldOrder.map CheckEvent.fieldCheck ++ sec.trace }

/-- Outcome of one `handleFormSubmit` run. -/
inductive Outcome
  | rejected
  | sendFailed
  | submitted
deriving DecidableEq, Repr

/-- Collaborator outcomes for one submission: the status code `emailjs.send`
resolves with, and whether the `contact_messages` insert reports an error. -/
structure SubmitEnv where
  emailStatus : Nat
  storeError : Bool
deriving Repr

/-- Result of `handleFormSubmit`: outcome, user-visible effects and collaborator
calls in order, and the locally persisted rate-limit history afterwards. -/
structure SubmitResult where
  outcome : Outcome
  effects : List Effect
  history : List Int
deriving Repr

/-- `handleFormSubmit` of main.js (the not-already-submitting path; the
`isSubmitting` flag only guards re-entry).  On validation failure a generic
error is shown and nothing is dispatched.  Otherwise `sendEmail` invokes the
mail collaborator and throws on a non-200 status, which the catch block turns
into an error notification — the store is then never reached and no submission
is recorded.  On a 200 status, `storeMessage` attempts the insert and swallows
any store error, `recordSubmission` appends the current time to the saved
history, and a success notification is shown.  (`recordSubmission` reads
`Date.now()` again, a few milliseconds after `checkRateLimit`; the embedding
uses the single instant `now` for both.) -/
def handleFormSubmit (sub : Submission) (now : Int) (h : List Int)
    (env : SubmitEnv) : SubmitResult :=
  let v := validateForm sub now h
  if !v.ok then
    { outcome := .rejected
      effects := v.effects ++ [.errorShown "Please correct the errors above"]
      history := v.history }
  else if env.emailStatus ≠ 200 then
    { outcome := .sendFailed
      effects := v.effects ++
        [.mailSend, .errorShown "Failed to send message. Please try again later."]
      history := v.history }
  else
    { outcome := .submitted
      effects := v.effects ++
        [.mailSend, .storeInsert,
         .successShown "Message sent successfully! Thank you for reaching out."]
      history := v.history ++ [now] }

/-- Iterate `handleFormSubmit` for one fixed submission and environment over a
list of submission instants, threading the locally persisted history.  Returns
the outcome of each attempt and the final history. -/
def submitSeq (sub : Submission) (env : SubmitEnv) :
    List Int → List Int → List Outcome × List Int
  | h, [] => ([], h)
  | h, t :: ts =>
    let r := handleFormSubmit sub t h env
    let (os, hf) := submitSeq sub env r.history ts
    (r.outcome :: os, hf)

end ContactForm

namespace Admin

/-! ### Supabase client layer (the unnamed source file): configuration,
validation helpers, project CRUD, admin authentication. -/

/-- `SUPABASE_CONFIG.security.maxFailedAttempts`. -/
def maxFailedAttempts : Nat := 3

/-- `SUPABASE_CONFIG.admin.require2FA`. -/
def require2FA : Bool := true

/-- `sanitizeString`: trim, then remove every `<` and `>`.  (The source first
returns `''` for non-string input; all embedded inputs are strings.) -/
def sanitizeString (s : String) : String :=
  ⟨(jsTrim s).toList.filter (fun c => c ≠ '<' && c ≠ '>')⟩

/-- Character allowed after the first one in a URL scheme: `[a-zA-Z0-9+.-]`. -/
def schemeChar (c : Char) : Bool :=
  ContactForm.alnum c || c = '+' || c = '-' || c = '.'

/-- Scan the rest of a candidate scheme for the terminating colon. -/
def schemeTail : List Char → Bool
  | [] => false
  | c :: rest => if c = ':' then true else schemeChar c && schemeTail rest

/-- `isValidUrl`: models the platform `new URL(input)` constructor, which the
source treats as an opaque validity oracle.  An absolute-URL parse requires an
ASCII-letter-initial scheme followed by a colon; this model accepts any
remainder after the colon. -/
def isValidUrl (s : String) : Bool :=
  match s.toList with
  | [] => false
  | c :: rest => (c.isUpper || c.isLower) && schemeTail rest

/-- `validateUrl`: return the URL unchanged, or throw `Invalid URL format`. -/
def validateUrl (s : String) : Except String String :=
  if isValidUrl s then .ok s else .error "Invalid URL format"

/-- Input of `createProject`/`updateProject` as collected by the admin UI. -/
structure ProjectData where
  name : String
  description : String
  url : String
  image_url : Option String
  technologies : List String
  category : Option String
  is_featured : Bool
deriving DecidableEq, Repr

/-- `validateProjectData`: the error thrown, or `none` when the data passes.
Checks run on the raw (unsanitized) field values, in source order. -/
def validateProjectData (d : ProjectData) : Option String :=
  if d.name.length < 3 || 100 < d.name.length then
    some "Project name must be between 3 and 100 characters"
  else if d.description.length < 10 || 500 < d.description.length then
    some "Project description must be between 10 and 500 characters"
  else if !isValidUrl d.url then
    some "Valid project URL is required"
  else
    none

/-- The row `createProject` hands to the store's insert call. -/
structure ProjectInsert where
  name : String
  description : String
  url : String
  image_url : Option String
  technologies : List String
  category : String
  is_featured : Bool
  is_active : Bool
deriving DecidableEq, Repr

/-- Store collaborator outcome for one CRUD call. -/
structure StoreEnv where
  insertError : Bool
deriving Repr

/-- `createProject`: run `validateProjectData` on the raw input, then build the
insert payload — sanitizing `name`, `description` and `category` and passing
`url`/`image_url` through `validateUrl`, whose throw would also precede the
network call — then invoke the store insert.  Returns the operation outcome and
whether the insert call was reached. -/
def createProject (d : ProjectData) (env : StoreEnv) :
    Except String ProjectInsert × Bool :=
  match validateProjectData d with
  | some msg => (.error msg, false)
  | none =>
    match validateUrl d.url with
    | .error msg => (.error msg, false)
    | .ok u =>
      match (match d.image_url with
             | none => Except.ok none
             | some iu => (validateUrl iu).map some) with
      | .error msg => (.error msg, false)
      | .ok img =>
        let row : ProjectInsert :=
          { name := sanitizeString d.name
            description := sanitizeString d.description
            url := u
            image_url := img
            technologies := d.technologies
            category := sanitizeString (d.category.getD "web")
            is_featured := d.is_featured
            is_active := true }
        if env.insertError then (.error "Database insert failed", true)
        else (.ok row, true)

/-- The create operation as §4.3 of the spec words it, for comparison with
`createProject`: sanitize the string fields FIRST, then validate the sanitized
values against the same length/format rules. -/
def specOrderCreateProject (d : ProjectData) (env : StoreEnv) :
    Except String ProjectInsert × Bool :=
  createProject
    { d with
      name := sanitizeString d.name
      description := sanitizeString d.description
      category := some (sanitizeString (d.category.getD "web")) } env

/-- A `projects` row as far as soft deletion and the active-set query see it. -/
structure ProjectRow where
  id : Nat
  name : String
  is_active : Bool
deriving DecidableEq, Repr

/-- `deleteProject`: `update({ is_active: false }).eq('id', id)` — clear the
active flag of every row whose id matches; no row is physically removed. -/
def deleteProject (id : Nat) (store : List ProjectRow) : List ProjectRow :=
  store.map (fun r => if r.id = id then { r with is_active := false } else r)

/-- `getProjects` (membership view): `select('*').eq('is_active', true)` — the
visible active set.  The source additionally orders by `created_at` descending,
which does not affect membership; the store's row order stands in for it. -/
def getProjects (store : List ProjectRow) : List ProjectRow :=
  store.filter (fun r => r.is_active)

/-! ### Admin authentication (`adminLogin`, `verify2FACode`, `isAdminLoggedIn`) -/

/-- Login form input. -/
structure Credentials where
  email : String
  password : String
deriving Repr

/-- The user object returned by the auth collaborator on success. -/
structure AuthUser where
  id : String
  email : String
deriving DecidableEq, Repr

/-- The client-side admin session object built by `createAdminSession`.
The random `generateSessionId()` value is elided. -/
structure AdminSession where
  user : AuthUser
  createdAt : Int
  is2FAVerified : Bool
deriving DecidableEq, Repr

/-- Collaborator outcomes consulted by `adminLogin`: whether `blocked_ips` has
an active row for the caller's address, the count of failed `login_attempts`
rows in the last hour, whether `signInWithPassword` succeeds, and whether
`admin_users` holds a matching `is_active` row for the authenticated user. -/
structure AuthEnv where
  ipBlocked : Bool
  failedAttempts : Nat
  authOk : Bool
  activeAdminRow : Bool
deriving Repr

/-- Collaborator calls `adminLogin` makes along the way. -/
inductive AuthEffect
  | blockIP
  | recordFailedLogin
  | signOut
  | clearFailedAttempts
  | send2FACode
deriving DecidableEq, Repr

/-- The success value `adminLogin` resolves with (user/session objects of the
auth collaborator elided). -/
structure LoginOk where
  requires2FA : Bool
deriving DecidableEq, Repr

/-- `verifyAdminPrivileges`: the `admin_users` single-row query filtered by
`user_id` and `is_active = true`; `true` iff a row came back. -/
def verifyAdminPrivileges (env : AuthEnv) : Bool :=
  env.activeAdminRow

/-- `createAdminSession`: a fresh session is always created with
`is2FAVerified: false`. -/
def createAdminSession (user : AuthUser) (now : Int) : AdminSession :=
  { user := user, createdAt := now, is2FAVerified := false }

/-- `adminLogin`: IP-block check, failed-attempt ceiling, credential presence,
the hosted credential check, then `verifyAdminPrivileges`; absence of an active
admin row forces `auth.signOut()`, records a failed login, and throws
`Access denied: Admin privileges required`.  On success: failed attempts are
cleared, the module-level `adminSession` is set to a fresh (2FA-unverified)
session, and a 2FA code is dispatched when `require2FA` is set.  Returns the
thrown/resolved result, the collaborator calls made, and the resulting
`adminSession` state. -/
def adminLogin (creds : Credentials) (env : AuthEnv) (user : AuthUser)
    (now : Int) : Except String LoginOk × List AuthEffect × Option AdminSession :=
  if env.ipBlocked then
    (.error "Access denied: IP address is blocked", [], none)
  else if maxFailedAttempts ≤ env.failedAttempts then
    (.error "Too many failed attempts. IP address has been blocked.",
     [.blockIP], none)
  else if creds.email = "" || creds.password = "" then
    (.error "Email and password are required", [.recordFailedLogin], none)
  else if !env.authOk then
    (.error "Invalid login credentials", [.recordFailedLogin], none)
  else if !verifyAdminPrivileges env then
    (.error "Access denied: Admin privileges required",
     [.signOut, .recordFailedLogin], none)
  else
    (.ok { requires2FA := require2FA },
     [.clearFailedAttempts] ++ (if require2FA then [.send2FACode] else []),
     some (createAdminSession user now))

/-- `validate2FACode`: the development stub accepting exactly `123456`. -/
def validate2FACode (email code : String) : Bool :=
  code = "123456"

/-- `verify2FACode`: requires an active session, validates the code against
the stub, and on success flips the session's `is2FAVerified` flag.  Returns
the thrown/resolved result and the resulting `adminSession` state. -/
def verify2FACode (code : String) (s : Option AdminSession) :
    Except String Bool × Option AdminSession :=
  match s with
  | none => (.error "No active admin session", none)
  | some sess =>
    if !validate2FACode sess.user.email code then
      (.error "Invalid 2FA code", some sess)
    else
      (.ok true, some { sess with is2FAVerified := true })

/-- The public API's `isAdminLoggedIn`:
`adminSession !== null && adminSession.is2FAVerified`. -/
def isAdminLoggedIn (s : Option AdminSession) : Bool :=
  match s with
  | none => false
  | some sess => sess.is2FAVerified

end Admin

/-! ## Helper lemmas -/

namespace ContactForm

/-- Every user-visible effect the security checks produce is an error
notification: they never invoke the mail or store collaborators. -/
theorem performSecurityChecks_effects_errorShown (sub : Submission) (now : Int)
    (h : List Int) (e : Effect) (he : e ∈ (performSecurityChecks sub now h).effects) :
    ∃ msg, e = .errorShown msg := by
  unfold performSecurityChecks at he
  by_cases hp : sub.honeypot ≠ ""
  · simp [hp] at he
  · by_cases hrl : (checkRateLimit now h).1 = true
    · by_cases hcc : checkMessageContent sub.message = true
      · simp [hp, hrl, hcc] at he
      · simp [hp, hrl, hcc] at he
        exact ⟨_, he⟩
    · simp [hp, hrl] at he
      exact ⟨_, he⟩

end ContactForm

/-! ## Claims -/

namespace Claims

open ContactForm Admin

/-- C1: for every contact-form submission whose hidden honeypot field holds a
non-empty string, the gate rejects the submission, neither the mail-send
collaborator (`emailjs.send`) nor the store collaborator (the
`contact_messages` insert) is invoked, and the security layer itself drops the
submission silently — `performSecurityChecks` fails with no user-visible
message of its own (only a console warning). -/
theorem honeypot_rejects_silently (sub : Submission) (now : Int) (h : List Int)
    (env : SubmitEnv) (hp : sub.honeypot ≠ "") :
    (handleFormSubmit sub now h env).outcome = .rejected ∧
    Effect.mailSend ∉ (handleFormSubmit sub now h env).effects ∧
    Effect.storeInsert ∉ (handleFormSubmit sub now h env).effects ∧
    (performSecurityChecks sub now h).ok = false ∧
    (performSecurityChecks sub now h).effects = [] := by
  simp [handleFormSubmit, validateForm, performSecurityChecks, hp]

/-- Witness for C1: a concrete bot submission with honeypot value `"x"`. -/
theorem honeypot_rejects_silently_witness :
    ({ name := "Jo Doe", email := "jo@example.com", subject := "Hello there"
       message := "I am reaching out about a project.",
       honeypot := "x" } : Submission).honeypot ≠ "" ∧
    (handleFormSubmit
      { name := "Jo Doe", email := "jo@example.com", subject := "Hello there"
        message := "I am reaching out about a project.", honeypot := "x" }
      0 [] ⟨200, false⟩).outcome = .rejected ∧
    Effect.mailSend ∉ (handleFormSubmit
      { name := "Jo Doe", email := "jo@example.com", subject := "Hello there"
        message := "I am reaching out about a project.", honeypot := "x" }
      0 [] ⟨200, false⟩).effects := by
  refine ⟨by decide, ?_⟩
  have := honeypot_rejects_silently
    { name := "Jo Doe", email := "jo@example.com", subject := "Hello there"
      message := "I am reaching out about a project.", honeypot := "x" }
    0 [] ⟨200, false⟩ (by decide)
  exact ⟨this.1, this.2.1⟩

/-- One step of the pipeline for a good submission (empty honeypot, no field
errors, clean content, mail collaborator answering 200) whose history holds no
entry old enough to prune: accepted with the instant appended when the history
is under the ceiling, rejected with the history unchanged otherwise. -/
theorem handleFormSubmit_good_step (sub : Submission) (env : SubmitEnv)
    (hhp : sub.honeypot = "") (hfe : validateFields sub = [])
    (hcc : checkMessageContent sub.message = true) (hes : env.emailStatus = 200)
    (t : Int) (h : List Int) (hfresh : ∀ u ∈ h, t - oneHourMs < u) :
    handleFormSubmit sub t h env =
      if h.length < maxSubmissionsPerHour then
        { outcome := .submitted
          effects := [.mailSend, .storeInsert,
            .successShown "Message sent successfully! Thank you for reaching out."]
          history := h ++ [t] }
      else
        { outcome := .rejected
          effects := [.errorShown "Too many submissions. Please wait before trying again.",
            .errorShown "Please correct the errors above"]
          history := h } := by
  have hprune : pruneHistory t h = h :=
    List.filter_eq_self.mpr (fun u hu => decide_eq_true (hfresh u hu))
  by_cases hlt : h.length < maxSubmissionsPerHour
  · simp [handleFormSubmit, validateForm, performSecurityChecks, checkRateLimit,
      hprune, hhp, hfe, hcc, hes, hlt]
  · simp [handleFormSubmit, validateForm, performSecurityChecks, checkRateLimit,
      hprune, hhp, hfe, hcc, hes, hlt]

/-- Generalized rolling-window run: starting from a history of `k ≤ ceiling`
fresh entries, the i-th of a burst of same-window submissions is accepted iff
`k + i` is under the ceiling, and the final history extends the initial one by
the accepted instants. -/
theorem submitSeq_under_ceiling (sub : Submission) (env : SubmitEnv)
    (hhp : sub.honeypot = "") (hfe : validateFields sub = [])
    (hcc : checkMessageContent sub.message = true) (hes : env.emailStatus = 200) :
    ∀ (ts h : List Int),
      (∀ t ∈ ts, ∀ u ∈ h, t - oneHourMs < u) →
      (∀ t ∈ ts, ∀ u ∈ ts, t - oneHourMs < u) →
      h.length ≤ maxSubmissionsPerHour →
      (submitSeq sub env h ts).1 =
        (List.range ts.length).map
          (fun i => if h.length + i < maxSubmissionsPerHour
                    then Outcome.submitted else .rejected) ∧
      (submitSeq sub env h ts).2 =
        h ++ ts.take (maxSubmissionsPerHour - h.length) := by
  intro ts
  induction ts with
  | nil => intro h _ _ _; simp [submitSeq]
  | cons t ts ih =>
    intro h hfresh hwin hlen
    have hstep := handleFormSubmit_good_step sub env hhp hfe hcc hes t h
      (fun u hu => hfresh t (by simp) u hu)
    by_cases hlt : h.length < maxSubmissionsPerHour
    · rw [if_pos hlt] at hstep
      have ih' := ih (h ++ [t])
        (by
          intro t' ht' u hu
          rcases List.mem_append.mp hu with hu | hu
          · exact hfresh t' (List.mem_cons_of_mem _ ht') u hu
          · rw [List.mem_singleton.mp hu]
            exact hwin t' (List.mem_cons_of_mem _ ht') t (List.mem_cons_self _ _))
        (fun t' ht' u hu =>
          hwin t' (List.mem_cons_of_mem _ ht') u (List.mem_cons_of_mem _ hu))
        (by simp [List.length_append]; omega)
      constructor
      · simp only [submitSeq, hstep, List.length_cons, List.range_succ_eq_map,
          List.map_cons, List.map_map]
        congr 1
        · simp [hlt]
        · rw [ih'.1]
          refine List.map_congr_left (fun i _ => ?_)
          simp only [Function.comp_apply, List.length_append,
            List.length_singleton]
          have e : h.length + 1 + i = h.length + (i + 1) := by omega
          rw [e]
      · simp only [submitSeq, hstep]
        rw [ih'.2]
        have hms : maxSubmissionsPerHour - h.length
            = (maxSubmissionsPerHour - (h.length + 1)) + 1 := by omega
        simp only [List.length_append, List.length_singleton, hms,
          List.take_succ_cons, List.append_assoc, List.singleton_append]
    · rw [if_neg hlt] at hstep
      have h5 : h.length = maxSubmissionsPerHour := by omega
      have ih' := ih h
        (fun t' ht' u hu => hfresh t' (List.mem_cons_of_mem _ ht') u hu)
        (fun t' ht' u hu =>
          hwin t' (List.mem_cons_of_mem _ ht') u (List.mem_cons_of_mem _ hu))
        hlen
      constructor
      · simp only [submitSeq, hstep, List.length_cons, List.range_succ_eq_map,
          List.map_cons, List.map_map]
        congr 1
        · simp [h5]
        · rw [ih'.1]
          refine List.map_congr_left (fun i _ => ?_)
          simp [Function.comp, h5]
      · simp only [submitSeq, hstep]
        rw [ih'.2]
        simp [h5]

/-- C2: for a well-formed submission repeated within one rolling hour starting
from an empty local history, each of the first `maxSubmissionsPerHour` (= 5)
attempts is accepted and its timestamp appended to the locally persisted
history, and every further attempt in the same window is rejected by the
rate-limit check (which first discards entries older than one hour — the
pruning step of `checkRateLimit`); the final history holds exactly the five
accepted timestamps. -/
theorem rate_limit_window (sub : Submission) (env : SubmitEnv) (ts : List Int)
    (hhp : sub.honeypot = "") (hfe : validateFields sub = [])
    (hcc : checkMessageContent sub.message = true) (hes : env.emailStatus = 200)
    (hwin : ∀ t ∈ ts, ∀ u ∈ ts, t - oneHourMs < u) :
    (submitSeq sub env [] ts).1 =
      (List.range ts.length).map
        (fun i => if i < maxSubmissionsPerHour
                  then Outcome.submitted else .rejected) ∧
    (submitSeq sub env [] ts).2 = ts.take maxSubmissionsPerHour := by
  have := submitSeq_under_ceiling sub env hhp hfe hcc hes ts []
    (by simp) hwin (by simp)
  simpa using this

/-- Witness for C2: six identical submissions at instants 0‥50 ms — the first
five are accepted (history `[0, 10, 20, 30, 40]`), the sixth is rejected. -/
theorem rate_limit_window_witness :
    (submitSeq
      { name := "Jo Doe", email := "jo@example.com", subject := "Hello there"
        message := "I am reaching out about a project.", honeypot := "" }
      ⟨200, false⟩ [] [0, 10, 20, 30, 40, 50]).1 =
      [.submitted, .submitted, .submitted, .submitted, .submitted, .rejected] ∧
    (submitSeq
      { name := "Jo Doe", email := "jo@example.com", subject := "Hello there"
        message := "I am reaching out about a project.", honeypot := "" }
      ⟨200, false⟩ [] [0, 10, 20, 30, 40, 50]).2 = [0, 10, 20, 30, 40] := by
  have := rate_limit_window
    { name := "Jo Doe", email := "jo@example.com", subject := "Hello there"
      message := "I am reaching out about a project.", honeypot := "" }
    ⟨200, false⟩ [0, 10, 20, 30, 40, 50]
    (by decide) (by decide) (by decide) (by decide) (by decide)
  simpa using this

/-- Any `validateProjectData` failure aborts `createProject` with that message
before the store insert is reached. -/
theorem createProject_error_of_validate (d : ProjectData) (env : StoreEnv)
    (msg : String) (hmsg : validateProjectData d = some msg) :
    createProject d env = (.error msg, false) := by
  simp [createProject, hmsg]

/-- C3 counterexample: on input name `"<<<ab"` (raw length 5, sanitized length
2) with otherwise valid fields, `createProject` accepts — validation ran on the
RAW name — and hands the store a row whose name `"ab"` violates the documented
3-character minimum, while the operation as the spec words it (sanitize first,
then validate) rejects the same input before any store call.  So the claim
that each operation "first sanitizes string fields and then validates" is
false of the code. -/
theorem create_sanitize_order_counterexample :
    createProject
      { name := "<<<ab", description := "This is a valid description."
        url := "https://example.com", image_url := none, technologies := []
        category := none, is_featured := false } ⟨false⟩ =
      (Except.ok
        { name := "ab", description := "This is a valid description."
          url := "https://example.com", image_url := none, technologies := []
          category := "web", is_featured := false, is_active := true }, true) ∧
    ("ab" : String).length < 3 ∧
    specOrderCreateProject
      { name := "<<<ab", description := "This is a valid description."
        url := "https://example.com", image_url := none, technologies := []
        category := none, is_featured := false } ⟨false⟩ =
      (Except.error "Project name must be between 3 and 100 characters",
       false) := by
  exact ⟨rfl, by decide, rfl⟩

/-- C3 (amended): `createProject` validates the RAW string fields against the
length/format rules first and sanitizes only while building the insert payload;
any violation still fails the operation before any network call with the
descriptive message identifying the offending field and bound, and in
particular a project URL that does not parse (e.g. `"not-a-url"`) is rejected
with `"Valid project URL is required"` before any store call. -/
theorem create_validates_before_store :
    (∀ (d : ProjectData) (env : StoreEnv) (msg : String),
       validateProjectData d = some msg →
       createProject d env = (.error msg, false)) ∧
    (∀ (d : ProjectData) (env : StoreEnv),
       3 ≤ d.name.length → d.name.length ≤ 100 →
       10 ≤ d.description.length → d.description.length ≤ 500 →
       d.url = "not-a-url" →
       createProject d env = (.error "Valid project URL is required", false)) := by
  refine ⟨createProject_error_of_validate, ?_⟩
  intro d env h1 h2 h3 h4 hurl
  have hnn : ¬ (d.name.length < 3) := by omega
  have hnm : ¬ (100 < d.name.length) := by omega
  have hdn : ¬ (d.description.length < 10) := by omega
  have hdm : ¬ (500 < d.description.length) := by omega
  have hu : isValidUrl d.url = false := by rw [hurl]; decide
  exact createProject_error_of_validate d env _
    (by simp [validateProjectData, hnn, hnm, hdn, hdm, hu])

/-- Witness for C3 (amended): a too-short name and the `"not-a-url"` scenario,
both rejected with the documented messages and no store call. -/
theorem create_validates_before_store_witness :
    createProject
      { name := "ab", description := "This is a valid description."
        url := "https://example.com", image_url := none, technologies := []
        category := none, is_featured := false } ⟨false⟩ =
      (.error "Project name must be between 3 and 100 characters", false) ∧
    createProject
      { name := "My Portfolio", description := "A personal portfolio website."
        url := "not-a-url", image_url := none, technologies := []
        category := none, is_featured := false } ⟨false⟩ =
      (.error "Valid project URL is required", false) :=
  ⟨create_validates_before_store.1 _ ⟨false⟩ _ (by decide),
   create_validates_before_store.2 _ ⟨false⟩ (by decide) (by decide)
     (by decide) (by decide) rfl⟩

/-- C4: whenever the hosted credential check succeeds but `admin_users` holds
no matching active row, `adminLogin` forces an immediate `auth.signOut()` (and
records a failed login) and the login fails with
`"Access denied: Admin privileges required"`; no session is created. -/
theorem admin_login_access_denied (creds : Credentials) (env : AuthEnv)
    (user : AuthUser) (now : Int)
    (h1 : env.ipBlocked = false) (h2 : env.failedAttempts < maxFailedAttempts)
    (h3 : creds.email ≠ "") (h4 : creds.password ≠ "")
    (h5 : env.authOk = true) (h6 : env.activeAdminRow = false) :
    adminLogin creds env user now =
      (.error "Access denied: Admin privileges required",
       [.signOut, .recordFailedLogin], none) := by
  have h2' : ¬ (maxFailedAttempts ≤ env.failedAttempts) := by omega
  simp [adminLogin, verifyAdminPrivileges, h1, h2', h3, h4, h5, h6]

/-- Witness for C4: a concrete login with well-formed credentials, a clean
address, a succeeding credential check and no active `admin_users` row. -/
theorem admin_login_access_denied_witness :
    adminLogin ⟨"admin@example.com", "hunter2hunter"⟩ ⟨false, 0, true, false⟩
      ⟨"user-1", "admin@example.com"⟩ 0 =
      (.error "Access denied: Admin privileges required",
       [.signOut, .recordFailedLogin], none) :=
  admin_login_access_denied ⟨"admin@example.com", "hunter2hunter"⟩
    ⟨false, 0, true, false⟩ ⟨"user-1", "admin@example.com"⟩ 0
    rfl (by decide) (by decide) (by decide) rfl rfl

/-- C5 counterexample: at a concrete submission the first check `validateForm`
performs is the per-field check of the name field — the honeypot check comes
only fifth — so the claim that the gate checks in the order honeypot, rate
limit, content, then per-field validation is false of the code. -/
theorem check_order_counterexample :
    (validateForm
      { name := "Jo Doe", email := "jo@example.com", subject := "Hello there"
        message := "I am reaching out about a project.", honeypot := "" }
      0 []).trace =
      [.fieldCheck .name, .fieldCheck .email, .fieldCheck .subject,
       .fieldCheck .message, .honeypotCheck, .rateLimitCheck, .contentCheck] ∧
    (validateForm
      { name := "Jo Doe", email := "jo@example.com", subject := "Hello there"
        message := "I am reaching out about a project.", honeypot := "" }
      0 []).trace.head? ≠ some CheckEvent.honeypotCheck := by
  exact ⟨rfl, by decide⟩

/-- C5 (amended): `validateForm` runs the per-field validation of all four
fields FIRST and only then the security checks, which themselves run in the
order honeypot, rate limit, content, each reached only if the previous one
passed (honeypot empty; pruned history under the ceiling). -/
theorem check_order_amended (sub : Submission) (now : Int) (h : List Int) :
    (validateForm sub now h).trace =
      fieldOrder.map CheckEvent.fieldCheck ++
        (performSecurityChecks sub now h).trace ∧
    (performSecurityChecks sub now h).trace.head? = some CheckEvent.honeypotCheck ∧
    (CheckEvent.rateLimitCheck ∈ (performSecurityChecks sub now h).trace →
       sub.honeypot = "") ∧
    (CheckEvent.contentCheck ∈ (performSecurityChecks sub now h).trace →
       sub.honeypot = "" ∧ (checkRateLimit now h).1 = true) := by
  refine ⟨rfl, ?_⟩
  by_cases hp : sub.honeypot ≠ ""
  · simp [performSecurityChecks, hp]
  · have hp' : sub.honeypot = "" := by simpa using hp
    by_cases hrl : (checkRateLimit now h).1 = true
    · by_cases hcc : checkMessageContent sub.message = true <;>
        simp [performSecurityChecks, hp, hrl, hcc, hp']
    · simp [performSecurityChecks, hp, hrl, hp']

/-- Witness for C5 (amended): on a clean concrete submission the content check
is in the trace, so the honeypot was empty and the rate limit passed. -/
theorem check_order_amended_witness :
    ({ name := "Jo Doe", email := "jo@example.com", subject := "Hello there"
       message := "I am reaching out about a project.", honeypot := "" }
      : Submission).honeypot = "" ∧
    (checkRateLimit 0 []).1 = true :=
  (check_order_amended
    { name := "Jo Doe", email := "jo@example.com", subject := "Hello there"
      message := "I am reaching out about a project.", honeypot := "" }
    0 []).2.2.2 (by decide)

/-- `repeatMatch s` holds iff a block of eleven identical non-line-terminator
characters occurs contiguously in `s`. -/
theorem repeatMatch_iff (s : List Char) :
    repeatMatch s = true ↔
      ∃ c, isLineTerminator c = false ∧ List.replicate 11 c <:+: s := by
  unfold repeatMatch
  rw [List.any_eq_true]
  constructor
  · rintro ⟨t, ht, hcond⟩
    cases t with
    | nil => cases hcond
    | cons c rest =>
      simp only [repeatRunAt, Bool.and_eq_true, Bool.not_eq_true',
        decide_eq_true_eq, List.all_eq_true] at hcond
      obtain ⟨⟨hlt, hlen⟩, hall⟩ := hcond
      refine ⟨c, hlt, ?_⟩
      have hrep : rest.take 10 = List.replicate 10 c := by
        rw [List.eq_replicate_iff]
        exact ⟨hlen, hall⟩
      have h11 : List.replicate 11 c = c :: rest.take 10 := by
        rw [hrep, show (11 : Nat) = 10 + 1 from rfl, List.replicate_succ]
      have hpre : List.replicate 11 c <+: c :: rest := by
        rw [h11]
        exact List.cons_prefix_cons.mpr ⟨rfl, List.take_prefix _ _⟩
      exact List.infix_iff_prefix_suffix.mpr
        ⟨c :: rest, hpre, (List.mem_tails _ _).mp ht⟩
  · rintro ⟨c, hlt, hinf⟩
    obtain ⟨t, hpre, hsuf⟩ := List.infix_iff_prefix_suffix.mp hinf
    refine ⟨t, (List.mem_tails _ _).mpr hsuf, ?_⟩
    obtain ⟨r, rfl⟩ := hpre
    have h11 : List.replicate 11 c ++ r = c :: (List.replicate 10 c ++ r) := by
      rw [show (11 : Nat) = 10 + 1 from rfl, List.replicate_succ,
        List.cons_append]
    rw [h11]
    have htake : (List.replicate 10 c ++ r).take 10 = List.replicate 10 c := by
      have := List.take_left (List.replicate 10 c) r
      rwa [List.length_replicate] at this
    simp only [repeatRunAt, Bool.and_eq_true, Bool.not_eq_true',
      decide_eq_true_eq, List.all_eq_true, htake]
    exact ⟨⟨hlt, by simp⟩, fun x hx => List.eq_of_mem_replicate hx⟩

/-- C6 counterexample: two messages the claim says the content check rejects
but `checkMessageContent` passes.  The message of ten consecutive `a`s has a
run of ten identical characters (and no spam keyword or URL), but the source
regex `(.)\1{10,}` only fires from eleven identical characters on; and the
message with a run of eleven newlines is passed as well, because `.` without
the `s` flag does not match line terminators. -/
theorem content_check_counterexample :
    (∃ c, List.replicate 10 c <:+: jsToLower "aaaaaaaaaa") ∧
    spamMatch (jsToLower "aaaaaaaaaa") = false ∧
    urlMatch (jsToLower "aaaaaaaaaa") = false ∧
    checkMessageContent "aaaaaaaaaa" = true ∧
    (∃ c, List.replicate 11 c <:+: jsToLower "Hi\n\n\n\n\n\n\n\n\n\n\nBye") ∧
    checkMessageContent "Hi\n\n\n\n\n\n\n\n\n\n\nBye" = true := by
  exact ⟨⟨'a', [], [], by decide⟩, by decide, by decide, by decide,
    ⟨'\n', ['h', 'i'], ['b', 'y', 'e'], by decide⟩, by decide⟩

/-- C6 (amended): the content check rejects a message iff its lower-cased text
matches the spam-keyword denylist, contains a URL, or contains a run of ELEVEN
or more identical consecutive characters other than a line terminator (the
regex `(.)\1{10,}`: one `.`-captured character — which excludes line
terminators — plus at least ten repeats); messages with none of these pass. -/
theorem content_check_characterization (msg : String) :
    checkMessageContent msg = false ↔
      (spamMatch (jsToLower msg) = true ∨ urlMatch (jsToLower msg) = true ∨
       ∃ c, isLineTerminator c = false ∧
         List.replicate 11 c <:+: jsToLower msg) := by
  rw [show checkMessageContent msg =
      !(spamMatch (jsToLower msg) || urlMatch (jsToLower msg) ||
        repeatMatch (jsToLower msg)) from rfl,
    ← repeatMatch_iff (jsToLower msg)]
  cases spamMatch (jsToLower msg) <;> cases urlMatch (jsToLower msg) <;>
    cases repeatMatch (jsToLower msg) <;> simp

/-- C7 counterexample: soft-deleting an active project DOES remove it from the
visible active set (`getProjects` filters on `is_active`), so the claim that
`deleteProject` "never removes a row from the visible active set" is false as
stated (its intent — no physical row removal — is the amended form). -/
theorem soft_delete_counterexample :
    (⟨1, "Portfolio", true⟩ : ProjectRow) ∈
      getProjects [⟨1, "Portfolio", true⟩] ∧
    (⟨1, "Portfolio", true⟩ : ProjectRow) ∉
      getProjects (deleteProject 1 [⟨1, "Portfolio", true⟩]) ∧
    getProjects (deleteProject 1 [⟨1, "Portfolio", true⟩]) = [] := by
  exact ⟨by decide, by decide, by decide⟩

/-- C7 (amended): `deleteProject` is a soft delete only — it never physically
removes a row from the store (ids and row count are preserved), it clears the
`is_active` flag of the targeted rows (thereby removing them from the visible
active set while the rows remain in the store), and it is idempotent: deleting
again, or deleting an already-inactive entity, is a no-op from the caller's
perspective. -/
theorem soft_delete_amended (id : Nat) (store : List ProjectRow) :
    (deleteProject id store).map ProjectRow.id = store.map ProjectRow.id ∧
    (deleteProject id store).length = store.length ∧
    (∀ r ∈ deleteProject id store, r.id = id → r.is_active = false) ∧
    deleteProject id (deleteProject id store) = deleteProject id store ∧
    ((∀ r ∈ store, r.id = id → r.is_active = false) →
       deleteProject id store = store) := by
  refine ⟨?_, by simp [deleteProject], ?_, ?_, ?_⟩
  · rw [deleteProject, List.map_map]
    refine List.map_congr_left (fun r _ => ?_)
    by_cases hr : r.id = id <;> simp [hr]
  · intro r hr hid
    obtain ⟨r0, _, rfl⟩ := List.mem_map.mp hr
    by_cases h0 : r0.id = id
    · simp [h0]
    · simp only [if_neg h0] at hid ⊢
      exact absurd hid h0
  · rw [deleteProject, deleteProject, List.map_map]
    refine List.map_congr_left (fun r _ => ?_)
    by_cases hr : r.id = id <;> simp [hr]
  · intro hall
    rw [deleteProject]
    have hcong : ∀ r ∈ store,
        (if r.id = id then { r with is_active := false } else r) = r := by
      intro r hr
      by_cases h : r.id = id
      · have ha := hall r hr h
        cases r with
        | mk i nm act => simp_all
      · simp [h]
    rw [List.map_congr_left hcong, List.map_id']

/-- Witness for C7 (amended): deleting the already-inactive row `1` leaves the
store unchanged; deleting active row `2` keeps the row count at one. -/
theorem soft_delete_amended_witness :
    deleteProject 1 [⟨1, "Old", false⟩] = [⟨1, "Old", false⟩] ∧
    (deleteProject 2 [⟨2, "P", true⟩]).length = 1 :=
  ⟨(soft_delete_amended 1 [⟨1, "Old", false⟩]).2.2.2.2 (by decide),
   (soft_delete_amended 2 [⟨2, "P", true⟩]).2.1⟩

/-- When validation fails, `handleFormSubmit` shows the generic error and
dispatches nothing. -/
theorem handleFormSubmit_of_invalid (sub : Submission) (now : Int)
    (h : List Int) (env : SubmitEnv)
    (hok : (validateForm sub now h).ok = false) :
    handleFormSubmit sub now h env =
      { outcome := .rejected
        effects := (validateForm sub now h).effects ++
          [.errorShown "Please correct the errors above"]
        history := (validateForm sub now h).history } := by
  simp [handleFormSubmit, hok]

/-- C8: for every accepted (fully validated) submission, a non-200 status from
the mail-send collaborator fails the whole submission — the store is never
reached, no submission is recorded, and an error is surfaced — whereas with a
200 status the submission succeeds, and a failure of the subsequent store
insert is swallowed: the result is bit-for-bit independent of whether the
store errored, so nothing rolls back or fails the completed mail send. -/
theorem mail_hard_store_soft (sub : Submission) (now : Int) (h : List Int)
    (env : SubmitEnv) (hok : (validateForm sub now h).ok = true) :
    (env.emailStatus ≠ 200 →
       (handleFormSubmit sub now h env).outcome = .sendFailed ∧
       Effect.mailSend ∈ (handleFormSubmit sub now h env).effects ∧
       Effect.storeInsert ∉ (handleFormSubmit sub now h env).effects ∧
       (handleFormSubmit sub now h env).history =
         (validateForm sub now h).history) ∧
    (env.emailStatus = 200 →
       (handleFormSubmit sub now h env).outcome = .submitted ∧
       Effect.mailSend ∈ (handleFormSubmit sub now h env).effects ∧
       Effect.storeInsert ∈ (handleFormSubmit sub now h env).effects) ∧
    handleFormSubmit sub now h { emailStatus := env.emailStatus, storeError := true } =
      handleFormSubmit sub now h { emailStatus := env.emailStatus, storeError := false } := by
  have hsec : Effect.storeInsert ∉ (validateForm sub now h).effects := by
    intro hmem
    obtain ⟨msg, hmsg⟩ := performSecurityChecks_effects_errorShown sub now h _ hmem
    cases hmsg
  refine ⟨?_, ?_, rfl⟩
  · intro hne
    simp [handleFormSubmit, hok, hne, hsec]
  · intro he
    simp [handleFormSubmit, hok, he]

/-- Witness for C8: a concrete valid submission against a failing mail
collaborator (status 500) and against a succeeding one with a failing store. -/
theorem mail_hard_store_soft_witness :
    (handleFormSubmit
      { name := "Jo Doe", email := "jo@example.com", subject := "Hello there"
        message := "I am reaching out about a project.", honeypot := "" }
      0 [] ⟨500, false⟩).outcome = .sendFailed ∧
    Effect.storeInsert ∉ (handleFormSubmit
      { name := "Jo Doe", email := "jo@example.com", subject := "Hello there"
        message := "I am reaching out about a project.", honeypot := "" }
      0 [] ⟨500, false⟩).effects ∧
    (handleFormSubmit
      { name := "Jo Doe", email := "jo@example.com", subject := "Hello there"
        message := "I am reaching out about a project.", honeypot := "" }
      0 [] ⟨200, true⟩).outcome = .submitted ∧
    Effect.mailSend ∈ (handleFormSubmit
      { name := "Jo Doe", email := "jo@example.com", subject := "Hello there"
        message := "I am reaching out about a project.", honeypot := "" }
      0 [] ⟨200, true⟩).effects := by
  have hfail := (mail_hard_store_soft
    { name := "Jo Doe", email := "jo@example.com", subject := "Hello there"
      message := "I am reaching out about a project.", honeypot := "" }
    0 [] ⟨500, false⟩ (by decide)).1 (by decide)
  have hok := (mail_hard_store_soft
    { name := "Jo Doe", email := "jo@example.com", subject := "Hello there"
      message := "I am reaching out about a project.", honeypot := "" }
    0 [] ⟨200, true⟩ (by decide)).2.1 rfl
  exact ⟨hfail.1, hfail.2.2.1, hok.1, hok.2.1⟩

/-- C9 counterexample: the name `"Jo"` has TWO characters, which meets the
2-character minimum — `validateField` reports no error and a submission with
name `"Jo"` (and otherwise valid fields) is accepted and the mail collaborator
invoked, so the claimed rejection of `"Jo"` is false of the code (the spec
scenario mislabels the 2-character `"Jo"` as one character under the minimum). -/
theorem name_min_counterexample :
    validateField .name "Jo" = none ∧
    (handleFormSubmit
      { name := "Jo", email := "jo@example.com", subject := "Hello there"
        message := "I am reaching out about a project.", honeypot := "" }
      0 [] ⟨200, false⟩).outcome = .submitted ∧
    Effect.mailSend ∈ (handleFormSubmit
      { name := "Jo", email := "jo@example.com", subject := "Hello there"
        message := "I am reaching out about a project.", honeypot := "" }
      0 [] ⟨200, false⟩).effects := by
  exact ⟨by decide, by decide, by decide⟩

/-- C9 (amended): a name actually one character under the minimum — the
1-character `"J"` — is rejected with the field error
`"Name must be at least 2 characters"`, and any submission bearing it is
rejected with the message never sent. -/
theorem name_min_amended :
    validateField .name "J" = some "Name must be at least 2 characters" ∧
    ∀ (sub : Submission) (now : Int) (h : List Int) (env : SubmitEnv),
      sub.name = "J" →
      (handleFormSubmit sub now h env).outcome = .rejected ∧
      Effect.mailSend ∉ (handleFormSubmit sub now h env).effects := by
  refine ⟨by decide, ?_⟩
  intro sub now h env hname
  have herr : validateField .name (sub.field .name)
      = some "Name must be at least 2 characters" := by
    show validateField .name sub.name = _
    rw [hname]
    decide
  have hne : (validateFields sub).isEmpty = false := by
    simp [validateFields, fieldOrder, herr]
  have hvok : (validateForm sub now h).ok = false := by
    simp [validateForm, hne]
  have hmail : Effect.mailSend ∉ (validateForm sub now h).effects := by
    intro hmem
    obtain ⟨msg, hmsg⟩ := performSecurityChecks_effects_errorShown sub now h _ hmem
    cases hmsg
  rw [handleFormSubmit_of_invalid sub now h env hvok]
  refine ⟨rfl, ?_⟩
  intro hmem
  rcases List.mem_append.mp hmem with hmem | hmem
  · exact hmail hmem
  · simp at hmem

/-- Witness for C9 (amended): the concrete 1-character submission. -/
theorem name_min_amended_witness :
    (handleFormSubmit
      { name := "J", email := "jo@example.com", subject := "Hello there"
        message := "I am reaching out about a project.", honeypot := "" }
      0 [] ⟨200, false⟩).outcome = .rejected ∧
    Effect.mailSend ∉ (handleFormSubmit
      { name := "J", email := "jo@example.com", subject := "Hello there"
        message := "I am reaching out about a project.", honeypot := "" }
      0 [] ⟨200, false⟩).effects :=
  name_min_amended.2
    { name := "J", email := "jo@example.com", subject := "Hello there"
      message := "I am reaching out about a project.", honeypot := "" }
    0 [] ⟨200, false⟩ rfl

/-- C10: `isAdminLoggedIn` is true only for a non-null session whose
2FA-verified flag is set; every successful `adminLogin` installs a session
created by `createAdminSession` with `is2FAVerified = false` — so immediately
after login `isAdminLoggedIn` is false — and `verify2FACode` succeeds only for
the fixed code `"123456"`, after which the session state satisfies
`isAdminLoggedIn`. -/
theorem admin_2fa_gate :
    (∀ s, isAdminLoggedIn s = true →
       ∃ sess, s = some sess ∧ sess.is2FAVerified = true) ∧
    (∀ (creds : Credentials) (env : AuthEnv) (user : AuthUser) (now : Int)
       (r : LoginOk),
       (adminLogin creds env user now).1 = .ok r →
       (adminLogin creds env user now).2.2 = some (createAdminSession user now) ∧
       isAdminLoggedIn (adminLogin creds env user now).2.2 = false) ∧
    (∀ (code : String) (s : Option AdminSession) (b : Bool),
       (verify2FACode code s).1 = .ok b →
       code = "123456" ∧ isAdminLoggedIn (verify2FACode code s).2 = true) := by
  refine ⟨?_, ?_, ?_⟩
  · intro s hs
    cases s with
    | none => cases hs
    | some sess => exact ⟨sess, rfl, hs⟩
  · intro creds env user now r hr
    unfold adminLogin at hr ⊢
    split at hr
    · cases hr
    · split at hr
      · cases hr
      · split at hr
        · cases hr
        · split at hr
          · cases hr
          · split at hr
            · cases hr
            · rename_i hA hB hC hD hE
              simp only [if_neg hA, if_neg hB, if_neg hC, if_neg hD, if_neg hE]
              simp [isAdminLoggedIn, createAdminSession, require2FA]
  · intro code s b hr
    cases s with
    | none => cases hr
    | some sess =>
      by_cases hc : validate2FACode sess.user.email code = true
      · have hcode : code = "123456" := by
          simpa [validate2FACode] using hc
        subst hcode
        simp [verify2FACode, validate2FACode, isAdminLoggedIn]
      · simp only [Bool.not_eq_true] at hc
        simp [verify2FACode, hc] at hr

/-- Witness for C10: a concrete successful login (session unverified, not
logged in) followed by a successful `verify2FACode` with the fixed code. -/
theorem admin_2fa_gate_witness :
    ((adminLogin ⟨"admin@example.com", "hunter2hunter"⟩ ⟨false, 0, true, true⟩
        ⟨"user-1", "admin@example.com"⟩ 0).2.2 =
      some (createAdminSession ⟨"user-1", "admin@example.com"⟩ 0) ∧
     isAdminLoggedIn (adminLogin ⟨"admin@example.com", "hunter2hunter"⟩
        ⟨false, 0, true, true⟩ ⟨"user-1", "admin@example.com"⟩ 0).2.2 = false) ∧
    ("123456" : String) = "123456" ∧
    isAdminLoggedIn (verify2FACode "123456"
      (some (createAdminSession ⟨"user-1", "admin@example.com"⟩ 0))).2 = true :=
  ⟨admin_2fa_gate.2.1 ⟨"admin@example.com", "hunter2hunter"⟩
      ⟨false, 0, true, true⟩ ⟨"user-1", "admin@example.com"⟩ 0 ⟨true⟩ rfl,
   admin_2fa_gate.2.2 "123456"
      (some (createAdminSession ⟨"user-1", "admin@example.com"⟩ 0)) true rfl⟩

end Claims

end Portfolio
